import Mathlib

/-!
Verification of the localization-management API core
(`localization_management_api/services.py` and `main.py`).

The storage backend (a hosted table store reached through a client object)
is embedded as an explicit record of table rows; each service method becomes
a pure function over that state, mirroring the Python control flow
line by line.  Machine strings stay `String`; Python `None` becomes
`Option`; Python truthiness of optional arguments is made explicit.
Timestamps are carried as raw strings since no claim depends on their
parsed value.
-/

namespace LocalizationAPI

/-- A row of the `translations` table:
`translations(id, translation_key_id, language_code, value, updated_at, updated_by)`. -/
structure TransRow where
  id : String
  translation_key_id : String
  language_code : String
  value : String
  updated_at : String
  updated_by : String
deriving DecidableEq

/-- A row of the `translation_keys` table:
`translation_keys(id, key, category, description, project_id)`. -/
structure KeyRow where
  id : String
  key : String
  category : String
  description : Option String
  project_id : String
deriving DecidableEq

/-- The storage state the service reads and writes: the three tables the
claims touch (`translation_keys`, `translations`, and the
`project_languages` association as (project_id, language_code) pairs). -/
structure DB where
  translation_keys : List KeyRow
  translations : List TransRow
  project_languages : List (String × String)
deriving DecidableEq

/-- Entity `Translation` from `models.py` (value, updated_at, updated_by). -/
structure Translation where
  value : String
  updated_at : String
  updated_by : String
deriving DecidableEq

/-- Entity `TranslationKey` from `models.py`; `translations` is the
Python dict `language_code -> Translation`, embedded as an association
list with at most one entry per code (insertion order, overwrite on
repeated assignment, as a Python dict behaves). -/
structure TranslationKey where
  id : String
  key : String
  category : String
  description : Option String
  translations : List (String × Translation)
deriving DecidableEq

/-- Lookup in the translations dict (`translations.get(code)`). -/
def assocGet (m : List (String × Translation)) (k : String) : Option Translation :=
  match m with
  | [] => none
  | (k1, v) :: rest => if k1 == k then some v else assocGet rest k

/-- Dict assignment `translations[code] = t`: overwrite in place when the
code is present, append otherwise. -/
def assocSet (m : List (String × Translation)) (k : String) (v : Translation) : List (String × Translation) :=
  if m.any (fun p => p.1 == k) then
    m.map (fun p => if p.1 == k then (k, v) else p)
  else
    m ++ [(k, v)]

/-- The loop in `get_translation_keys` that builds the dict from the nested
translation rows of one key. -/
def buildTranslations (rows : List TransRow) : List (String × Translation) :=
  rows.foldl (fun m t => assocSet m t.language_code ⟨t.value, t.updated_at, t.updated_by⟩) []

/-- Nested-relation fetch: the translation rows belonging to one key
(the `translations(...)` sub-select of the query). -/
def rowTranslations (db : DB) (key_id : String) : List TransRow :=
  db.translations.filter (fun t => t.translation_key_id == key_id)

/-- The translations dict of a key row, as the service builds it. -/
def keyTranslations (db : DB) (r : KeyRow) : List (String × Translation) :=
  buildTranslations (rowTranslations db r.id)

/-- Row-to-entity shaping done in the `get_translation_keys` loop. -/
def toTranslationKey (db : DB) (r : KeyRow) : TranslationKey :=
  ⟨r.id, r.key, r.category, r.description, keyTranslations db r⟩

/-- Python truthiness of an optional string argument
(`if search:` is false for both None and the empty string). -/
def pyTruthyStr : Option String → Bool
  | none => false
  | some s => !(s == "")

/-- Python truthiness of an optional boolean argument
(`if missing_translations:`). -/
def pyTruthyBool : Option Bool → Bool
  | none => false
  | some b => b

/-- Truthiness of `translation.value and translation.value.strip()`:
the value is non-empty and strips to a non-empty string. -/
def hasCompletedValue (v : String) : Bool :=
  !(v == "") && v.toList.any (fun c => !(c.isWhitespace))

/-- Per-language completeness test used by both branches of the
missing-translations filter: the dict has an entry for the code and its
value is non-blank (`translation and translation.value and
translation.value.strip()`). -/
def completedFor (tr : List (String × Translation)) (c : String) : Bool :=
  match assocGet tr c with
  | some t => hasCompletedValue t.value
  | none => false

/-- Case-insensitive leading match on character lists. -/
def charsLeadWith : List Char → List Char → Bool
  | [], _ => true
  | _ :: _, [] => false
  | a :: as, b :: bs => a == b && charsLeadWith as bs

/-- Substring occurrence on character lists. -/
def charsContain (needle : List Char) : List Char → Bool
  | [] => charsLeadWith needle []
  | c :: rest => charsLeadWith needle (c :: rest) || charsContain needle rest

/-- ASCII lower-casing of one character, the case folding `ilike` applies
to the ASCII identifiers of the `key` column. -/
def lowerChar (c : Char) : Char :=
  if 65 ≤ c.toNat ∧ c.toNat ≤ 90 then Char.ofNat (c.toNat + 32) else c

/-- The `ilike("key", "%search%")` predicate of the storage backend:
case-insensitive substring containment. -/
def ilikeContains (hay pat : String) : Bool :=
  charsContain (pat.toList.map lowerChar) (hay.toList.map lowerChar)

/-- The query of `get_translation_keys` before the in-memory loop:
rows of the project, narrowed by the optional `ilike` search and the
optional category equality (each applied only when truthy). -/
def candidateRows (db : DB) (project_id : String) (search category : Option String) : List KeyRow :=
  let rows := db.translation_keys.filter (fun r => r.project_id == project_id)
  let rows := if pyTruthyStr search then rows.filter (fun r => ilikeContains r.key (search.getD "")) else rows
  if pyTruthyStr category then rows.filter (fun r => r.category == category.getD "") else rows

/-- `fetchProjectLanguageCodes`: the `project_languages` rows of the
project, projected to their language codes. -/
def projectLanguageCodes (db : DB) (project_id : String) : List String :=
  (db.project_languages.filter (fun p => p.1 == project_id)).map (fun p => p.2)

/-- The missing-translations filter decision for one key row
(services.py lines 50-71).  With a truthy `language_code` the key is kept
unless it has a completed translation for that language; otherwise it is
kept unless it has a completed translation for every configured project
language.  Without the filter every row is kept. -/
def keepRow (db : DB) (project_id : String) (language_code : Option String)
    (missing_translations : Option Bool) (r : KeyRow) : Bool :=
  if pyTruthyBool missing_translations then
    if pyTruthyStr language_code then
      !(completedFor (keyTranslations db r) (language_code.getD ""))
    else
      !((projectLanguageCodes db project_id).all (fun c => completedFor (keyTranslations db r) c))
  else
    true

/-- The `filtered_translation_keys` list the service accumulates:
candidate rows surviving the missing-translations filter, shaped into
entities, in fetch order. -/
def filteredKeys (db : DB) (project_id : String) (search category language_code : Option String)
    (missing_translations : Option Bool) : List TranslationKey :=
  ((candidateRows db project_id search category).filter
    (keepRow db project_id language_code missing_translations)).map (toTranslationKey db)

/-- `TranslationService.get_translation_keys`: filter, count after
filtering, then slice `[offset, offset+limit)` with
`offset = (page - 1) * limit`. -/
def get_translation_keys (db : DB) (project_id : String) (page limit : Nat)
    (search category language_code : Option String) (missing_translations : Option Bool) :
    List TranslationKey × Nat :=
  let fk := filteredKeys db project_id search category language_code missing_translations
  let total := fk.length
  let offset := (page - 1) * limit
  ((fk.drop offset).take limit, total)

/-- `TranslationService.get_translation_key_by_id`: first row whose id
matches, shaped into an entity; None when no row matches. -/
def get_translation_key_by_id (db : DB) (key_id : String) : Option TranslationKey :=
  match db.translation_keys.filter (fun k => k.id == key_id) with
  | [] => none
  | row :: _ => some (toTranslationKey db row)

/-- The (translation_key_id, language_code) natural-key predicate the
upsert queries with (`.eq("translation_key_id", key_id).eq("language_code",
language_code)`). -/
def pairMatch (key_id language_code : String) (t : TransRow) : Bool :=
  t.translation_key_id == key_id && t.language_code == language_code

/-- The storage update applied to every row matching the pair: overwrite
`value` and `updated_by`, leave other rows alone. -/
def updRow (key_id language_code value updated_by : String) (t : TransRow) : TransRow :=
  if pairMatch key_id language_code t then
    { t with value := value, updated_by := updated_by }
  else
    t

/-- `TranslationService.update_translation`: select the rows for the pair;
when some exist, update them in place; otherwise insert a fresh row whose
id `newId` stands for the generated uuid (its `updated_at` is left to the
storage default, embedded as the empty string).  Returns True in both
branches. -/
def update_translation (db : DB) (newId key_id language_code value updated_by : String) :
    DB × Bool :=
  let existing := db.translations.filter (pairMatch key_id language_code)
  if existing.isEmpty then
    ({ db with translations :=
        db.translations ++ [⟨newId, key_id, language_code, value, "", updated_by⟩] }, true)
  else
    ({ db with translations :=
        db.translations.map (updRow key_id language_code value updated_by) }, true)

/-- Does a `translation_keys` row with this id exist. -/
def keyExists (db : DB) (key_id : String) : Bool :=
  db.translation_keys.any (fun k => k.id == key_id)

/-- One entry of a bulk-update request. -/
structure UpdateEntry where
  key_id : String
  language_code : String
  value : String
  updated_by : String
deriving DecidableEq

/-- `update_translation` as the storage actually runs it: the insert
branch hits the foreign-key constraint on `translations.translation_key_id`
and raises when the referenced key row does not exist, which is the
repository failure the bulk path catches.  Under that constraint a missing
key also has no translation rows, so the check is placed up front. -/
def update_translation_checked (db : DB) (newId : String) (e : UpdateEntry) :
    Except String (DB × Bool) :=
  if keyExists db e.key_id then
    Except.ok (update_translation db newId e.key_id e.language_code e.value e.updated_by)
  else
    Except.error "foreign key violation on translations.translation_key_id"

/-- The loop of `bulk_update_translations`: try each entry in submission
order, count a success, and on an exception keep the state and continue.
`ids i` stands for the uuid generated for the insert of the i-th entry. -/
def bulkGo (ids : Nat → String) : Nat → DB → List UpdateEntry → DB × Nat
  | _, db, [] => (db, 0)
  | i, db, u :: rest =>
    match update_translation_checked db (ids i) u with
    | Except.ok (db1, _) =>
      let r := bulkGo ids (i + 1) db1 rest
      (r.1, r.2 + 1)
    | Except.error _ =>
      bulkGo ids (i + 1) db rest

/-- `TranslationService.bulk_update_translations`: returns the final state
and the success count. -/
def bulk_update_translations (ids : Nat → String) (db : DB) (updates : List UpdateEntry) :
    DB × Nat :=
  bulkGo ids 0 db updates

/-- Which storage call inside `delete_translation_key`, if any, raises;
the try/except of the method catches whichever it is. -/
inductive DeleteFail where
  | ok
  | onSelect
  | onDeleteTranslations
  | onDeleteKey
deriving DecidableEq

/-- `TranslationService.delete_translation_key`: existence check, delete
of child translation rows, delete of the key row returning the deleted
rows, True iff at least one key row came back.  The whole body sits in a
try/except that converts any storage failure into a False return, with
whatever state the failed call left behind. -/
def delete_translation_key (fail : DeleteFail) (db : DB) (key_id : String) : DB × Bool :=
  if fail == DeleteFail.onSelect then (db, false)
  else
    match get_translation_key_by_id db key_id with
    | none => (db, false)
    | some _ =>
      if fail == DeleteFail.onDeleteTranslations then (db, false)
      else
        let db1 := { db with translations :=
          db.translations.filter (fun t => !(t.translation_key_id == key_id)) }
        if fail == DeleteFail.onDeleteKey then (db1, false)
        else
          let deleted := db1.translation_keys.filter (fun k => k.id == key_id)
          let db2 := { db1 with translation_keys :=
            db1.translation_keys.filter (fun k => !(k.id == key_id)) }
          (db2, decide (0 < deleted.length))

/-- Python `round(x, 2)` embedded on exact rationals: half-up rounding to
two decimal places (the float tie-to-even corner cases play no role in any
claim). -/
def round2 (q : ℚ) : ℚ :=
  (Int.floor (q * 100 + 1 / 2) : ℚ) / 100

/-- Per-language completion entry of the analytics payload. -/
structure LangCompletion where
  completed : Nat
  total : Nat
  percentage : ℚ
deriving DecidableEq

/-- The analytics payload `get_analytics` assembles (its `last_updated`
wall-clock field is irrelevant to every claim and omitted). -/
structure Analytics where
  project_id : String
  total_keys : Nat
  completion_by_language : List (String × LangCompletion)
deriving DecidableEq

/-- `TranslationService.get_analytics`: counts the keys of the project, then
for each configured project language counts rows of the whole
`translations` table carrying that language code (the query filters on
`language_code` alone, with no join to the keys of the project). -/
def get_analytics (db : DB) (project_id : String) : Analytics :=
  let total_keys := (db.translation_keys.filter (fun k => k.project_id == project_id)).length
  let completion := (projectLanguageCodes db project_id).map (fun lc =>
    let completed := (db.translations.filter (fun t => t.language_code == lc)).length
    (lc, { completed := completed, total := total_keys,
           percentage := round2 (if 0 < total_keys then (completed : ℚ) / (total_keys : ℚ) * 100 else 0) : LangCompletion }))
  { project_id := project_id, total_keys := total_keys, completion_by_language := completion }

/-- HTTP-boundary failures of the create-translation entry point. -/
inductive HttpFailure where
  | notFound
  | conflict
  | badRequest
deriving DecidableEq

/-- The POST /translations handler `create_translation` in `main.py`:
404 when the referenced key is absent, 409 when the key already has an
entry for the language, otherwise delegate to the `update_translation`
upsert (whose unreachable False return would map to 400).  A failure is
raised before any mutation, so the store is unchanged on the error paths. -/
def create_translation (db : DB) (newId key_id language_code value username : String) :
    Except HttpFailure DB :=
  match get_translation_key_by_id db key_id with
  | none => Except.error HttpFailure.notFound
  | some tk =>
    if (assocGet tk.translations language_code).isSome then
      Except.error HttpFailure.conflict
    else
      let r := update_translation db newId key_id language_code value username
      if r.2 then Except.ok r.1 else Except.error HttpFailure.badRequest

/-! Concrete fixtures used to instantiate the theorems below. -/

/-- A project-p1 key with a completed en value, a blank fr value and a
completed de value. -/
def exKey1 : KeyRow := ⟨"k1", "greeting", "ui", none, "p1"⟩

/-- A key of another project. -/
def exKey2 : KeyRow := ⟨"k2", "farewell", "ui", none, "p2"⟩

/-- A small store: two keys, four translation rows, project p1 configured
with en, fr and de. -/
def exampleDb : DB :=
  ⟨[exKey1, exKey2],
   [⟨"t1", "k1", "en", "Hello", "2024-01-01T00:00:00Z", "system"⟩,
    ⟨"t2", "k1", "fr", "", "2024-01-01T00:00:00Z", "system"⟩,
    ⟨"t3", "k1", "de", "Guten Tag", "2024-01-01T00:00:00Z", "system"⟩,
    ⟨"t4", "k2", "en", "Bye", "2024-01-01T00:00:00Z", "system"⟩],
   [("p1", "en"), ("p1", "fr"), ("p1", "de")]⟩

/-- A store exhibiting the analytics cross-project counting: project p1
owns one key whose only en row is blank, while a key of a second project
carries another en row. -/
def analyticsDb : DB :=
  ⟨[⟨"k1", "greeting", "ui", none, "p1"⟩, ⟨"k2", "greeting", "ui", none, "p2"⟩],
   [⟨"t1", "k1", "en", "", "2024-01-01T00:00:00Z", "system"⟩,
    ⟨"t2", "k2", "en", "Hallo", "2024-01-01T00:00:00Z", "system"⟩],
   [("p1", "en")]⟩

/-! Helper lemmas. -/

lemma hasCompletedValue_eq_false_iff (v : String) :
    hasCompletedValue v = false ↔ v.toList.all Char.isWhitespace = true := by
  by_cases hv : v = ""
  · subst hv
    simp [hasCompletedValue]
  · have hb : (v == "") = false := beq_eq_false_iff_ne.mpr hv
    simp [hasCompletedValue, hb, List.all_eq_true, List.any_eq_false]

lemma completedFor_eq_false_iff (tr : List (String × Translation)) (c : String) :
    completedFor tr c = false ↔
      (assocGet tr c = none ∨
       ∃ t, assocGet tr c = some t ∧ t.value.toList.all Char.isWhitespace = true) := by
  cases h : assocGet tr c with
  | none => simp [completedFor, h]
  | some t => simp [completedFor, h, hasCompletedValue_eq_false_iff]

/-- C1: with missing_translations=true and no language_code, a candidate
key is kept iff some configured project language has no dict entry or a
blank-valued one; a key completed for every project language is dropped.
`keepRow` is exactly the per-row decision `filteredKeys` (and hence
`get_translation_keys`) filters with. -/
theorem get_translation_keys_missing_any_language_iff
    (db : DB) (project_id : String) (r : KeyRow) :
    keepRow db project_id none (some true) r = true ↔
      ∃ c ∈ projectLanguageCodes db project_id,
        assocGet (keyTranslations db r) c = none ∨
        ∃ t, assocGet (keyTranslations db r) c = some t ∧
          t.value.toList.all Char.isWhitespace = true := by
  unfold keepRow
  simp only [pyTruthyBool, pyTruthyStr, Bool.false_eq_true, if_false, if_true,
    Bool.not_eq_true', List.all_eq_false]
  constructor
  · rintro ⟨c, hc, hfalse⟩
    exact ⟨c, hc, (completedFor_eq_false_iff _ c).mp (by simpa using hfalse)⟩
  · rintro ⟨c, hc, hmiss⟩
    exact ⟨c, hc, by simpa using (completedFor_eq_false_iff _ c).mpr hmiss⟩

/-- C2: with missing_translations=true and a (truthy) language_code, a
candidate key is kept iff its dict has no entry for that code or a
blank-valued one; a key with a non-blank value for the code is dropped. -/
theorem get_translation_keys_missing_specific_language_iff
    (db : DB) (project_id lc : String) (hlc : lc ≠ "") (r : KeyRow) :
    keepRow db project_id (some lc) (some true) r = true ↔
      assocGet (keyTranslations db r) lc = none ∨
      ∃ t, assocGet (keyTranslations db r) lc = some t ∧
        t.value.toList.all Char.isWhitespace = true := by
  unfold keepRow
  have hb : (lc == "") = false := beq_eq_false_iff_ne.mpr hlc
  simp only [pyTruthyBool, pyTruthyStr, hb, Bool.not_false, if_true, Option.getD_some,
    Bool.not_eq_true']
  exact completedFor_eq_false_iff _ lc

/-- C2 witness: in the example store the key k1 (blank fr value) is kept
by the fr-specific missing-translations filter. -/
theorem get_translation_keys_missing_specific_language_witness :
    keepRow exampleDb "p1" (some "fr") (some true) exKey1 = true :=
  (get_translation_keys_missing_specific_language_iff exampleDb "p1" "fr" (by decide)
    exKey1).mpr (by decide)

/-- C10: an empty-string search or category is falsy and is skipped
exactly like an omitted filter. -/
theorem empty_search_and_category_ignored
    (db : DB) (project_id : String) (page limit : Nat)
    (search category language_code : Option String) (missing_translations : Option Bool) :
    get_translation_keys db project_id page limit (some "") category language_code
        missing_translations =
      get_translation_keys db project_id page limit none category language_code
        missing_translations ∧
    get_translation_keys db project_id page limit search (some "") language_code
        missing_translations =
      get_translation_keys db project_id page limit search none language_code
        missing_translations := by
  constructor <;>
    simp [get_translation_keys, filteredKeys, candidateRows, pyTruthyStr]

/-- C3: the returned total counts the fully filtered list, the page holds
exactly the filtered elements at indices [(page-1)*limit, (page-1)*limit +
limit), and an offset at or past the end gives an empty page with the same
total. -/
theorem get_translation_keys_total_and_page
    (db : DB) (project_id : String) (search category language_code : Option String)
    (missing_translations : Option Bool) (page limit : Nat)
    (hp : 1 ≤ page) (hl1 : 1 ≤ limit) (hl2 : limit ≤ 100) :
    (get_translation_keys db project_id page limit search category language_code
        missing_translations).2 =
      (filteredKeys db project_id search category language_code missing_translations).length ∧
    (get_translation_keys db project_id page limit search category language_code
        missing_translations).1.length =
      min limit
        ((filteredKeys db project_id search category language_code missing_translations).length -
          (page - 1) * limit) ∧
    (∀ i, i < limit →
      (get_translation_keys db project_id page limit search category language_code
          missing_translations).1[i]? =
        (filteredKeys db project_id search category language_code
            missing_translations)[(page - 1) * limit + i]?) ∧
    ((filteredKeys db project_id search category language_code missing_translations).length ≤
        (page - 1) * limit →
      (get_translation_keys db project_id page limit search category language_code
          missing_translations).1 = []) := by
  refine ⟨rfl, ?_, ?_, ?_⟩
  · show ((_ : List TranslationKey).take limit).length = _
    rw [List.length_take, List.length_drop]
  · intro i hi
    show ((_ : List TranslationKey).take limit)[i]? = _
    rw [List.getElem?_take_of_lt hi, List.getElem?_drop]
  · intro hle
    show ((_ : List TranslationKey).take limit) = []
    rw [List.drop_eq_nil_of_le hle, List.take_nil]

/-- C3 witness: on the example store, page 1 of limit 2 for project p1
reports total 1 (one key in p1) and returns that key at index 0. -/
theorem get_translation_keys_total_and_page_witness :
    (get_translation_keys exampleDb "p1" 1 2 none none none none).2 =
      (filteredKeys exampleDb "p1" none none none none).length ∧
    (get_translation_keys exampleDb "p1" 1 2 none none none none).1[0]? =
      (filteredKeys exampleDb "p1" none none none none)[0]? :=
  ⟨(get_translation_keys_total_and_page exampleDb "p1" none none none none 1 2
      (by decide) (by decide) (by decide)).1,
   by
    have h := (get_translation_keys_total_and_page exampleDb "p1" none none none none 1 2
      (by decide) (by decide) (by decide)).2.2.1 0 (by decide)
    simpa using h⟩

/-! Lemmas about the upsert. -/

lemma update_translation_snd (db : DB) (newId key_id language_code value updated_by : String) :
    (update_translation db newId key_id language_code value updated_by).2 = true := by
  unfold update_translation
  dsimp only
  split <;> rfl

lemma pairMatch_updRow (key_id language_code value updated_by : String) (t : TransRow) :
    pairMatch key_id language_code (updRow key_id language_code value updated_by t) =
      pairMatch key_id language_code t := by
  unfold updRow
  split <;> simp_all [pairMatch]

lemma updRow_value (key_id language_code value updated_by : String) (t : TransRow)
    (h : pairMatch key_id language_code t = true) :
    (updRow key_id language_code value updated_by t).value = value := by
  unfold updRow
  rw [if_pos h]

lemma update_translation_translations
    (db : DB) (newId key_id language_code value updated_by : String) :
    (update_translation db newId key_id language_code value updated_by).1.translations =
      if (db.translations.filter (pairMatch key_id language_code)).isEmpty then
        db.translations ++ [⟨newId, key_id, language_code, value, "", updated_by⟩]
      else
        db.translations.map (updRow key_id language_code value updated_by) := by
  unfold update_translation
  dsimp only
  split <;> rfl

lemma filter_pairMatch_map_updRow (key_id language_code value updated_by : String)
    (l : List TransRow) :
    (l.map (updRow key_id language_code value updated_by)).filter
        (pairMatch key_id language_code) =
      (l.filter (pairMatch key_id language_code)).map
        (updRow key_id language_code value updated_by) := by
  rw [List.filter_map]
  congr 1
  exact List.filter_congr fun t _ => pairMatch_updRow key_id language_code value updated_by t

/-- C4: the upsert returns true in both branches, and under the storage
uniqueness constraint on (translation_key_id, language_code), two calls
with the same pair and value leave exactly one row for the pair, carrying
that value. -/
theorem update_translation_upsert_idempotent
    (db : DB) (id1 id2 key_id language_code value ub1 ub2 : String)
    (h : (db.translations.filter (pairMatch key_id language_code)).length ≤ 1) :
    (update_translation db id1 key_id language_code value ub1).2 = true ∧
    (update_translation (update_translation db id1 key_id language_code value ub1).1
        id2 key_id language_code value ub2).2 = true ∧
    (((update_translation (update_translation db id1 key_id language_code value ub1).1
          id2 key_id language_code value ub2).1.translations.filter
        (pairMatch key_id language_code)).map TransRow.value) = [value] := by
  refine ⟨update_translation_snd _ _ _ _ _ _, update_translation_snd _ _ _ _ _ _, ?_⟩
  rcases h0 : db.translations.filter (pairMatch key_id language_code) with _ | ⟨t0, rest⟩
  · -- no row for the pair: the first call inserts, the second updates it
    have hrow : pairMatch key_id language_code
        (⟨id1, key_id, language_code, value, "", ub1⟩ : TransRow) = true := by
      simp [pairMatch]
    have hE : (db.translations.filter (pairMatch key_id language_code)).isEmpty = true := by
      rw [h0]; rfl
    have hT1 : (update_translation db id1 key_id language_code value ub1).1.translations =
        db.translations ++ [⟨id1, key_id, language_code, value, "", ub1⟩] := by
      rw [update_translation_translations, if_pos hE]
    have hF1 : ((update_translation db id1 key_id language_code value ub1).1.translations.filter
        (pairMatch key_id language_code)) = [⟨id1, key_id, language_code, value, "", ub1⟩] := by
      rw [hT1, List.filter_append, h0, List.nil_append]
      simp [hrow]
    have hE1 : ¬ (((update_translation db id1 key_id language_code value ub1).1.translations.filter
        (pairMatch key_id language_code)).isEmpty = true) := by
      rw [hF1]; simp
    rw [update_translation_translations, if_neg hE1, filter_pairMatch_map_updRow, hF1]
    simp [updRow_value _ _ _ _ _ hrow]
  · -- exactly one row for the pair: both calls update it in place
    have hlen : rest.length = 0 := by
      have h1 := h
      rw [h0, List.length_cons] at h1
      omega
    have hrest := List.eq_nil_of_length_eq_zero hlen
    subst hrest
    have ht0 : pairMatch key_id language_code t0 = true := by
      have hm : t0 ∈ db.translations.filter (pairMatch key_id language_code) := by
        rw [h0]; exact List.mem_singleton.mpr rfl
      exact List.of_mem_filter hm
    have hE0 : ¬ ((db.translations.filter (pairMatch key_id language_code)).isEmpty = true) := by
      rw [h0]; simp
    have hT1 : (update_translation db id1 key_id language_code value ub1).1.translations =
        db.translations.map (updRow key_id language_code value ub1) := by
      rw [update_translation_translations, if_neg hE0]
    have hF1 : ((update_translation db id1 key_id language_code value ub1).1.translations.filter
        (pairMatch key_id language_code)) = [updRow key_id language_code value ub1 t0] := by
      rw [hT1, filter_pairMatch_map_updRow, h0]
      rfl
    have hE1 : ¬ (((update_translation db id1 key_id language_code value ub1).1.translations.filter
        (pairMatch key_id language_code)).isEmpty = true) := by
      rw [hF1]; simp
    have hm1 : pairMatch key_id language_code (updRow key_id language_code value ub1 t0) = true := by
      rw [pairMatch_updRow]; exact ht0
    rw [update_translation_translations, if_neg hE1, filter_pairMatch_map_updRow, hF1]
    simp [updRow_value _ _ _ _ _ hm1]

/-- C4 witness: two identical upserts into the example store for the pair
(k1, it) leave exactly one it-row for k1, valued "Ciao". -/
theorem update_translation_upsert_idempotent_witness :
    (((update_translation (update_translation exampleDb "n1" "k1" "it" "Ciao" "u1").1
        "n2" "k1" "it" "Ciao" "u2").1.translations.filter
      (pairMatch "k1" "it")).map TransRow.value) = ["Ciao"] :=
  (update_translation_upsert_idempotent exampleDb "n1" "n2" "k1" "it" "Ciao" "u1" "u2"
    (by decide)).2.2

/-! Lemmas about the bulk path. -/

lemma update_translation_keys_eq
    (db : DB) (newId key_id language_code value updated_by : String) :
    (update_translation db newId key_id language_code value updated_by).1.translation_keys =
      db.translation_keys := by
  unfold update_translation
  dsimp only
  split <;> rfl

lemma keyExists_congr {d1 d2 : DB} (h : d1.translation_keys = d2.translation_keys)
    (key_id : String) : keyExists d1 key_id = keyExists d2 key_id := by
  unfold keyExists
  rw [h]

lemma bulkGo_count (ids : Nat → String) (updates : List UpdateEntry) :
    ∀ (i : Nat) (db : DB),
      (bulkGo ids i db updates).2 =
        (updates.filter (fun u => keyExists db u.key_id)).length := by
  induction updates with
  | nil => intro i db; rfl
  | cons u rest ih =>
    intro i db
    by_cases hk : keyExists db u.key_id = true
    · have hstep : update_translation_checked db (ids i) u =
          Except.ok (update_translation db (ids i) u.key_id u.language_code u.value
            u.updated_by) := by
        unfold update_translation_checked
        rw [if_pos hk]
      have hkeys := update_translation_keys_eq db (ids i) u.key_id u.language_code u.value
        u.updated_by
      show (bulkGo ids i db (u :: rest)).2 = _
      rw [bulkGo, hstep]
      dsimp only
      rw [ih (i + 1) _]
      have hfilter : (rest.filter (fun v => keyExists
          (update_translation db (ids i) u.key_id u.language_code u.value u.updated_by).1
          v.key_id)).length =
          (rest.filter (fun v => keyExists db v.key_id)).length := by
        congr 1
        exact List.filter_congr fun v _ => keyExists_congr hkeys v.key_id
      rw [hfilter, List.filter_cons, if_pos hk, List.length_cons]
    · have hk0 : keyExists db u.key_id = false := by
        cases hke : keyExists db u.key_id with
        | false => rfl
        | true => exact absurd hke hk
      have hstep : update_translation_checked db (ids i) u =
          Except.error "foreign key violation on translations.translation_key_id" := by
        unfold update_translation_checked
        rw [if_neg (by rw [hk0]; simp)]
      rw [bulkGo, hstep]
      rw [ih (i + 1) db, List.filter_cons, if_neg (by rw [hk0]; simp)]

/-- C5: the bulk update runs every entry in submission order, catches an
individual failure (here the foreign-key violation of an insert for a
missing key) and continues; the returned count equals the number of
entries whose referenced key exists in the store, which is at most the
number submitted.  The function is total, so no exception escapes. -/
theorem bulk_update_translations_success_count
    (ids : Nat → String) (db : DB) (updates : List UpdateEntry) :
    (bulk_update_translations ids db updates).2 =
      (updates.filter (fun u => keyExists db u.key_id)).length ∧
    (bulk_update_translations ids db updates).2 ≤ updates.length := by
  constructor
  · exact bulkGo_count ids updates 0 db
  · show (bulkGo ids 0 db updates).2 ≤ updates.length
    rw [bulkGo_count ids updates 0 db]
    exact List.length_filter_le _ _

/-! Lemmas about the delete path. -/

lemma get_translation_key_by_id_none_iff (db : DB) (key_id : String) :
    get_translation_key_by_id db key_id = none ↔
      db.translation_keys.filter (fun k => k.id == key_id) = [] := by
  unfold get_translation_key_by_id
  cases h : db.translation_keys.filter (fun k => k.id == key_id) <;> simp

/-- C6: with the storage healthy, deleting a missing key returns false
and leaves the store unchanged; deleting an existing key removes every
translation row of that key, then the key row itself, and returns true. -/
theorem delete_translation_key_cascade (db : DB) (key_id : String) :
    (get_translation_key_by_id db key_id = none →
      delete_translation_key DeleteFail.ok db key_id = (db, false)) ∧
    (get_translation_key_by_id db key_id ≠ none →
      (delete_translation_key DeleteFail.ok db key_id).2 = true ∧
      (delete_translation_key DeleteFail.ok db key_id).1.translations =
        db.translations.filter (fun t => !(t.translation_key_id == key_id)) ∧
      (delete_translation_key DeleteFail.ok db key_id).1.translation_keys =
        db.translation_keys.filter (fun k => !(k.id == key_id))) := by
  constructor
  · intro h
    unfold delete_translation_key
    rw [h]
    rfl
  · intro h
    rcases hg : get_translation_key_by_id db key_id with _ | tk
    · exact absurd hg h
    have hfilter : db.translation_keys.filter (fun k => k.id == key_id) ≠ [] := by
      intro hnil
      exact h ((get_translation_key_by_id_none_iff db key_id).mpr hnil)
    unfold delete_translation_key
    rw [hg]
    dsimp only
    refine ⟨?_, rfl, rfl⟩
    rcases hc : db.translation_keys.filter (fun k => k.id == key_id) with _ | ⟨k0, ks⟩
    · exact absurd hc hfilter
    rw [hc]
    simp

/-- C6 witness: deleting k1 from the example store succeeds and removes
its three translation rows, leaving only the row of the other key. -/
theorem delete_translation_key_cascade_witness :
    (delete_translation_key DeleteFail.ok exampleDb "k1").2 = true ∧
    (delete_translation_key DeleteFail.ok exampleDb "k1").1.translations =
      exampleDb.translations.filter (fun t => !(t.translation_key_id == "k1")) :=
  ⟨((delete_translation_key_cascade exampleDb "k1").2 (by decide)).1,
   ((delete_translation_key_cascade exampleDb "k1").2 (by decide)).2.1⟩

/-- C7 counterexample: in the example store the key k1 exists, yet a
storage failure during the child-row delete makes delete_translation_key
return the plain value (exampleDb, false) — exactly what the not-found
case returns for a missing id — instead of surfacing a typed failure. -/
theorem delete_translation_key_swallows_storage_failure :
    delete_translation_key DeleteFail.onDeleteTranslations exampleDb "k1" =
      (exampleDb, false) ∧
    get_translation_key_by_id exampleDb "k1" ≠ none ∧
    delete_translation_key DeleteFail.ok exampleDb "missing" = (exampleDb, false) := by
  refine ⟨?_, ?_, ?_⟩ <;> decide

/-- C7 amended: operations other than the bulk path and
delete_translation_key propagate repository failures, but
delete_translation_key catches any storage failure and returns false — an
ordinary value indistinguishable from the not-found outcome — keeping the
state reached at the failure point (unchanged when the failure hits before
the child-row delete). -/
theorem delete_translation_key_failure_returns_false
    (db : DB) (key_id : String) (fail : DeleteFail) (h : fail ≠ DeleteFail.ok) :
    (delete_translation_key fail db key_id).2 = false ∧
    ((fail = DeleteFail.onSelect ∨ fail = DeleteFail.onDeleteTranslations) →
      delete_translation_key fail db key_id = (db, false)) := by
  cases fail with
  | ok => exact absurd rfl h
  | onSelect =>
    constructor
    · rfl
    · intro _; rfl
  | onDeleteTranslations =>
    have hcase : delete_translation_key DeleteFail.onDeleteTranslations db key_id =
        (db, false) := by
      rcases hg : get_translation_key_by_id db key_id with _ | tk <;>
        (unfold delete_translation_key; rw [hg]) <;> rfl
    exact ⟨by rw [hcase], fun _ => hcase⟩
  | onDeleteKey =>
    constructor
    · rcases hg : get_translation_key_by_id db key_id with _ | tk <;>
        (unfold delete_translation_key; rw [hg]) <;> rfl
    · rintro (hc | hc) <;> exact DeleteFail.noConfusion hc

/-- C7 amended witness: a failure while deleting the child rows of k1 in the
example store yields a bare false with the store untouched. -/
theorem delete_translation_key_failure_returns_false_witness :
    delete_translation_key DeleteFail.onDeleteTranslations exampleDb "k1" =
      (exampleDb, false) :=
  (delete_translation_key_failure_returns_false exampleDb "k1"
    DeleteFail.onDeleteTranslations (by decide)).2 (Or.inr rfl)

/-- C8: the POST /translations handler fails with 404 when the referenced
key is absent and with 409 when the key already has a dict entry for the
language (either failure raised before any write), and otherwise returns
the store produced by the same update_translation upsert. -/
theorem create_translation_endpoint_checks
    (db : DB) (newId key_id language_code value user : String) :
    (get_translation_key_by_id db key_id = none →
      create_translation db newId key_id language_code value user =
        Except.error HttpFailure.notFound) ∧
    (∀ tk, get_translation_key_by_id db key_id = some tk →
      (assocGet tk.translations language_code).isSome = true →
      create_translation db newId key_id language_code value user =
        Except.error HttpFailure.conflict) ∧
    (∀ tk, get_translation_key_by_id db key_id = some tk →
      assocGet tk.translations language_code = none →
      create_translation db newId key_id language_code value user =
        Except.ok (update_translation db newId key_id language_code value user).1) := by
  refine ⟨?_, ?_, ?_⟩
  · intro h
    unfold create_translation
    rw [h]
  · intro tk h hsome
    unfold create_translation
    rw [h]
    dsimp only
    rw [if_pos hsome]
  · intro tk h hnone
    unfold create_translation
    rw [h]
    dsimp only
    rw [if_neg (by rw [hnone]; simp), if_pos (update_translation_snd db newId key_id
      language_code value user)]

/-- C8 witness: creating a translation for a missing key id in the
example store fails with the 404-equivalent. -/
theorem create_translation_endpoint_checks_witness :
    create_translation exampleDb "n1" "missing" "en" "Hi" "alice" =
      Except.error HttpFailure.notFound :=
  (create_translation_endpoint_checks exampleDb "n1" "missing" "en" "Hi" "alice").1 (by decide)

/-! Lemmas about the analytics. -/

lemma round2_intCast (k : ℤ) : round2 ((k : ℚ)) = (k : ℚ) := by
  unfold round2
  have hfl : Int.floor ((k : ℚ) * 100 + 1 / 2) = 100 * k := by
    rw [Int.floor_eq_iff]
    constructor
    · push_cast
      linarith
    · push_cast
      linarith
  rw [hfl]
  push_cast
  ring

lemma get_analytics_analyticsDb :
    get_analytics analyticsDb "p1" = ⟨"p1", 1, [("en", ⟨2, 1, 200⟩)]⟩ := by
  have h0 : get_analytics analyticsDb "p1" =
      ⟨"p1", 1, [("en", ⟨2, 1,
        round2 (if 0 < 1 then ((2 : Nat) : ℚ) / ((1 : Nat) : ℚ) * 100 else 0)⟩)]⟩ := rfl
  rw [h0]
  have h1 : (if 0 < 1 then ((2 : Nat) : ℚ) / ((1 : Nat) : ℚ) * 100 else 0) = ((200 : ℤ) : ℚ) := by
    norm_num
  rw [h1, round2_intCast]
  norm_num

/-- C9: the per-language completed count of get_analytics tallies rows of
the whole translations table carrying the language code (blank values and
rows of keys of other projects included), while total counts only the given
keys; on the analytics fixture — one p1 key whose sole en row is blank,
plus an en row of a key of another project — completed exceeds total and the
percentage is 200. -/
theorem get_analytics_counts_whole_table :
    (∀ (db : DB) (project_id : String),
      (get_analytics db project_id).completion_by_language.map (fun p => (p.1, p.2.completed)) =
        (projectLanguageCodes db project_id).map
          (fun lc => (lc, (db.translations.filter (fun t => t.language_code == lc)).length)) ∧
      (get_analytics db project_id).total_keys =
        (db.translation_keys.filter (fun k => k.project_id == project_id)).length) ∧
    (get_analytics analyticsDb "p1").completion_by_language = [("en", ⟨2, 1, 200⟩)] ∧
    (∃ p ∈ (get_analytics analyticsDb "p1").completion_by_language,
      p.2.total < p.2.completed ∧ (100 : ℚ) < p.2.percentage) := by
  refine ⟨?_, by rw [get_analytics_analyticsDb], ?_⟩
  · intro db project_id
    constructor
    · unfold get_analytics
      dsimp only
      rw [List.map_map]
      rfl
    · rfl
  · refine ⟨("en", ⟨2, 1, 200⟩), ?_, ?_, ?_⟩
    · rw [get_analytics_analyticsDb]
      exact List.mem_singleton.mpr rfl
    · decide
    · norm_num

end LocalizationAPI
